import Mathlib

/-!
A shallow embedding of the Noraneko WinUpdater core (pkg/updater/updater.go and
pkg/config) in Lean 4, together with theorems settling the frozen claims about
the natural-language specification.

Modelling conventions:
* Go strings are Lean `String`s.  `strings.EqualFold` is modelled as equality
  of `toLower` images (faithful for the ASCII file names the updater handles).
* Filesystem paths are lists of components (the separators stripped); the zip
  path check of `unzip` is modelled on component lists, which matches the
  string check because a cleaned path's string form is the components joined
  by the separator.
* External effects (HTTP requests, filesystem writes, the installer process)
  are modelled by an `Env` record of their outcomes; the pure control flow of
  the Go source is translated verbatim.  Filesystem primitives that the
  claims do not exercise (MkdirAll, RemoveAll, file writes) are modelled as
  succeeding.
-/

namespace Noraneko

/-- Go `strings.TrimPrefix s pre`: drop `pre` when it is a leading part of `s`.
(Character-list implementation so that proofs can evaluate it.) -/
def trimPrefixStr (s pre : String) : String :=
  if pre.data.isPrefixOf s.data then String.mk (s.data.drop pre.data.length) else s

/-- Lowercasing of a string, character by character (Go `strings.ToLower` on
the ASCII names the updater handles). -/
def strToLower (s : String) : String :=
  String.mk (s.data.map Char.toLower)

/-- Go `strings.Contains s sub`: `sub` occurs as a contiguous run in `s`. -/
def strContains (s sub : String) : Bool :=
  s.data.tails.any (fun t => sub.data.isPrefixOf t)

/-- Go `strings.HasSuffix s suf`. -/
def strHasSuffix (s suf : String) : Bool :=
  suf.data.isSuffixOf s.data

/-- Go `strings.EqualFold` restricted to ASCII: case-insensitive equality. -/
def equalFold (a b : String) : Bool :=
  strToLower a == strToLower b

/-- Split a character list at every separator accepted by `p`, keeping empty
tokens (the behaviour of Go `strings.Split`). -/
def splitCharsP (p : Char → Bool) : List Char → List Char → List (List Char)
  | [], acc => [acc.reverse]
  | c :: cs, acc =>
    if p c then acc.reverse :: splitCharsP p cs []
    else splitCharsP p cs (c :: acc)

/-- Go `strings.Split(s, "\n")`. -/
def splitLines (s : String) : List String :=
  (splitCharsP (fun c => c == '\n') s.data []).map String.mk

/-- Go `strings.Fields`: split on whitespace runs, keeping non-empty tokens. -/
def fieldsOf (line : String) : List String :=
  ((splitCharsP (fun c => c == ' ' || c == '\t' || c == '\r' || c == '\x0b' || c == '\x0c')
      line.data []).map String.mk).filter (fun t => t ≠ "")

/-- `isNewerVersion` from updater.go lines 194-204: strip a leading "v" from
both arguments; an empty or sentinel `"0.0.0"` current means "update
available"; otherwise newer means textually different. -/
def isNewerVersion (current latest : String) : Bool :=
  let c := trimPrefixStr current "v"
  let l := trimPrefixStr latest "v"
  if c == "" || c == "0.0.0" then true
  else l != c

/-- The §4.1 contract of the spec, written from the spec words: normalise by
stripping a single leading "v"; empty or sentinel current gives `true`;
otherwise `true` iff the normalised strings differ. -/
def isNewerSpec (current latest : String) : Bool :=
  let c := if "v".data.isPrefixOf current.data then String.mk (current.data.drop 1) else current
  let l := if "v".data.isPrefixOf latest.data then String.mk (latest.data.drop 1) else latest
  if c == "" then true
  else if c == "0.0.0" then true
  else !(l == c)

/-- A release asset (`Asset` struct in updater.go). -/
structure Asset where
  name : String
  browserDownloadURL : String
  size : Int
deriving Repr, DecidableEq

/-- A GitHub release (`Release` struct in updater.go). -/
structure Release where
  tagName : String
  relName : String
  assets : List Asset
deriving Repr, DecidableEq

/-- The ordered suffix list built by `findAsset` (updater.go lines 252-266):
the mode-and-architecture specific name first, then the looser fallbacks. -/
def assetSuffixes (isPortable : Bool) (arch : String) : List String :=
  (if isPortable then "windows-" ++ arch ++ "-portable.zip"
   else "windows-" ++ arch ++ "-setup.exe")
  :: ["win64.zip", "win64-setup.exe", "windows.zip", "windows-setup.exe"]

/-- The inner test of `findAsset`: lowercased name contains or ends with the
lowercased fragment. -/
def assetMatchesSuffix (a : Asset) (s : String) : Bool :=
  let n := strToLower a.name
  strContains n (strToLower s) || strHasSuffix n (strToLower s)

/-- An asset matching at least one of the acceptable fragments. -/
def assetMatchesAny (sufs : List String) (a : Asset) : Bool :=
  sufs.any (assetMatchesSuffix a)

/-- The fallback rule of `findAsset` (updater.go lines 277-284): any asset
whose name mentions windows and ends in an installer or archive extension. -/
def isFallbackAsset (a : Asset) : Bool :=
  let n := strToLower a.name
  (strContains n "windows" || strContains n "win") &&
    (strHasSuffix n ".exe" || strHasSuffix n ".zip")

/-- `findAsset` from updater.go lines 244-287.  The Go code iterates over the
assets in list order and, for each asset, over the fragments in priority
order; hence the first asset (in list order) matching any fragment wins. -/
def findAsset (assets : List Asset) (isPortable : Bool) (arch : String) :
    Except String Asset :=
  match assets.find? (assetMatchesAny (assetSuffixes isPortable arch)) with
  | some a => .ok a
  | none =>
    match assets.find? isFallbackAsset with
    | some a => .ok a
    | none => .error "no suitable download found for this platform"

/-- The asset-resolution contract as the spec words it (§4.2 and claim C4):
the fragments are tried in fragment-priority order across all assets, and the
first match in fragment-priority order wins; same fallback rule afterwards. -/
def findAssetSpec (assets : List Asset) (isPortable : Bool) (arch : String) :
    Except String Asset :=
  match (assetSuffixes isPortable arch).findSome?
      (fun s => assets.find? (fun a => assetMatchesSuffix a s)) with
  | some a => .ok a
  | none =>
    match assets.find? isFallbackAsset with
    | some a => .ok a
    | none => .error "no suitable download found for this platform"

/-- `findChecksumAsset` from updater.go lines 290-298: the first asset whose
lowercased name contains "sha256" or ends with ".sha256". -/
def findChecksumAsset (assets : List Asset) : Option Asset :=
  assets.find? (fun a =>
    let n := strToLower a.name
    strContains n "sha256" || strHasSuffix n ".sha256")

/-- Strip the leading binary-mode marker of a manifest file name
(`strings.TrimPrefix(parts[1], "*")` in updater.go line 350). -/
def trimStar (s : String) : String := trimPrefixStr s "*"

/-- One iteration of the manifest scan in `verifyChecksum` (updater.go lines
346-356): a line whose fields are `hash :: name :: _` matches when the
marker-stripped name equals the target case-insensitively or ends with the
target (case-sensitively, Go `strings.HasSuffix`); on a match the lowercased
hash is selected. -/
def lineMatch (fileName line : String) : Option String :=
  match fieldsOf line with
  | hash :: nm :: _ =>
    let n := trimStar nm
    if equalFold n fileName || strHasSuffix n fileName then some (strToLower hash)
    else none
  | _ => none

/-- The manifest scan of `verifyChecksum`: split the manifest on newlines and
take the first matching record's hash. -/
def findExpectedHash (data fileName : String) : Option String :=
  (splitLines data).findSome? (lineMatch fileName)

/-- The record-matching rule as the spec words it (claim C5): case-insensitive
exact **or suffix** match of the marker-stripped filename field against the
target, first match wins. -/
def lineMatchSpec (fileName line : String) : Option String :=
  match fieldsOf line with
  | hash :: nm :: _ =>
    let n := trimStar nm
    if equalFold n fileName || strHasSuffix (strToLower n) (strToLower fileName) then
      some (strToLower hash)
    else none
  | _ => none

/-- Manifest scan under the spec-worded matching rule of claim C5. -/
def findExpectedHashSpec (data fileName : String) : Option String :=
  (splitLines data).findSome? (lineMatchSpec fileName)

/-- Amended record-matching rule, re-derived from the amended claim wording:
iterate the manifest lines in order; a record with at least two
whitespace-separated fields matches when its marker-stripped filename field
equals the target up to ASCII case, or ends with the target exactly; the
first matching record's lowercased digest is the expected hash. -/
def findHashAmended (lines : List String) (target : String) : Option String :=
  match lines with
  | [] => none
  | l :: rest =>
    match fieldsOf l with
    | hash :: nm :: _ =>
      let n := trimStar nm
      if strToLower n == strToLower target || strHasSuffix n target then
        some (strToLower hash)
      else findHashAmended rest target
    | _ => findHashAmended rest target

/-- Amended manifest scan (claim C5 amended): split on newlines, first
matching record wins. -/
def findExpectedHashAmended (data target : String) : Option String :=
  findHashAmended (splitLines data) target

/-- `verifyChecksum` from updater.go lines 329-380.  The manifest download and
the local reads are effects; their outcome is a parameter.  `actualHash` is
the lowercase hex SHA-256 of the downloaded file (hex.EncodeToString always
produces lowercase).  Verification fails when the manifest cannot be fetched,
when no record matches the target name, or when the digests differ. -/
def verifyChecksum (manifestDownloadOk : Bool) (data fileName actualHash : String) :
    Except String Unit :=
  if !manifestDownloadOk then .error "failed to download checksum file"
  else
    match findExpectedHash data fileName with
    | none => .error ("checksum for " ++ fileName ++ " not found in checksum file")
    | some expected =>
      if actualHash == expected then .ok ()
      else .error ("checksum mismatch: expected " ++ expected ++ ", got " ++ actualHash)

/-- One entry of a zip archive: its name split into path components (Go zip
names use "/" separators), and whether it is a directory entry. -/
structure ZipEntry where
  path : List String
  isDir : Bool
deriving Repr, DecidableEq

/-- One step of Go `filepath.Clean` on a rooted path, working on components:
"." and empty components vanish, ".." removes the last kept component (the
parent of the root is the root), anything else is kept. -/
def cleanStep (stack : List String) (c : String) : List String :=
  if c == "." || c == "" then stack
  else if c == ".." then stack.dropLast
  else stack ++ [c]

/-- Go `filepath.Clean` of a rooted path given as components. -/
def cleanComps (comps : List String) : List String :=
  comps.foldl cleanStep []

/-- `filepath.Join(dest, f.Name)` of updater.go line 437, on components:
concatenate and clean. -/
def entryDestPath (dest : List String) (e : ZipEntry) : List String :=
  cleanComps (dest ++ e.path)

/-- The ZipSlip check of updater.go line 438:
`strings.HasPrefix(fpath, filepath.Clean(dest)+sep)` holds exactly when the
cleaned destination is a proper leading part of the joined cleaned path. -/
def entryWithinDest (dest : List String) (e : ZipEntry) : Bool :=
  let d := cleanComps dest
  let p := entryDestPath dest e
  d.isPrefixOf p && decide (d.length < p.length)

/-- `unzip` from updater.go lines 428-472: walk the entries in order and fail
at the first one whose joined path escapes the destination.  Directory
creation and file writes are filesystem effects the claims do not exercise;
they are modelled as succeeding. -/
def unzip (entries : List ZipEntry) (dest : List String) : Except String Unit :=
  match entries with
  | [] => .ok ()
  | e :: rest =>
    if !entryWithinDest dest e then
      .error ("illegal file path: " ++ String.intercalate "/" (entryDestPath dest e))
    else unzip rest dest

/-- Filesystem events on the staging directory issued by `extractPortable`. -/
inductive FsEvent where
  | removeStaging
  | createStaging
deriving Repr, DecidableEq

/-- Whether the staging directory exists after a sequence of events (it does
not exist initially or is wiped by the leading RemoveAll). -/
def stagingExists (events : List FsEvent) : Bool :=
  events.foldl (fun _ e => match e with
    | FsEvent.createStaging => true
    | FsEvent.removeStaging => false) false

/-- Outcome of `extractPortable`: its returned error value and the staging
directory events it issued, in order. -/
structure ExtractOutcome where
  result : Except String Unit
  events : List FsEvent
deriving Repr

/-- `extractPortable` from updater.go lines 383-425: wipe and recreate the
staging directory, register a deferred RemoveAll, unzip into it, pick the
payload root and copy it into the browser directory.  The recursive copy is
an effect represented by `copyOk`; the deferred RemoveAll runs on every
return path after the directory was created. -/
def extractPortable (entries : List ZipEntry) (stagingDir : List String)
    (copyOk : Bool) : ExtractOutcome :=
  let pre := [FsEvent.removeStaging, FsEvent.createStaging]
  match unzip entries stagingDir with
  | .error e =>
    { result := .error ("extraction failed: " ++ e)
      events := pre ++ [FsEvent.removeStaging] }
  | .ok () =>
    if copyOk then
      { result := .ok (), events := pre ++ [FsEvent.removeStaging] }
    else
      { result := .error "failed to copy files"
        events := pre ++ [FsEvent.removeStaging] }

/-- `runInstaller` from updater.go lines 514-530: silent invocation first; on
failure, one interactive retry whose exit status is the final result. -/
def runInstaller (silentOk interactiveOk : Bool) : Except String Unit :=
  if silentOk then .ok ()
  else if interactiveOk then .ok ()
  else .error "installer failed"

/-- Outcomes of the external effects of one updater run.  Each field is the
result the corresponding HTTP request, filesystem access or child process
would produce; the Go control flow over them is translated verbatim. -/
structure Env where
  connectOk : Bool
  currentVersion : Option String
  release : Option Release
  checkOnly : Bool
  cfgPortable : Bool
  optsPortable : Bool
  downloadOk : Bool
  manifestDownloadOk : Bool
  manifestContent : String
  actualHash : String
  zipEntries : List ZipEntry
  workDir : List String
  copyOk : Bool
  silentInstallOk : Bool
  interactiveInstallOk : Bool
  logWriteOk : Bool
  now : String
  arch : String
deriving Repr, DecidableEq

/-- Observable actions of `downloadAndInstall`, in program order: the asset
download, the start of checksum verification, its success, and the two
install strategies (recorded when the strategy is invoked, whatever its
result). -/
inductive Action where
  | download (name : String)
  | verify
  | verifyOk
  | extract
  | install
deriving Repr, DecidableEq

/-- The install dispatch at the end of `downloadAndInstall` (updater.go lines
232-240): portable mode or a ".zip" asset extracts, otherwise the installer
runs. -/
def installStep (env : Env) (asset : Asset) (tr : List Action) :
    Except String Unit × List Action :=
  let isPortable := env.cfgPortable || env.optsPortable
  if isPortable || strHasSuffix asset.name ".zip" then
    ((extractPortable env.zipEntries (env.workDir ++ ["Noraneko-Extracted"])
        env.copyOk).result,
     tr ++ [Action.extract])
  else
    (runInstaller env.silentInstallOk env.interactiveInstallOk,
     tr ++ [Action.install])

/-- `downloadAndInstall` from updater.go lines 207-241: resolve the asset,
download it, verify its checksum when a manifest asset exists, then install.
Returns the error value together with the ordered trace of actions. -/
def downloadAndInstall (env : Env) (rel : Release) :
    Except String Unit × List Action :=
  match findAsset rel.assets (env.cfgPortable || env.optsPortable) env.arch with
  | .error e => (.error ("failed to find download: " ++ e), [])
  | .ok asset =>
    if !env.downloadOk then (.error "download failed", [Action.download asset.name])
    else
      let tr0 := [Action.download asset.name]
      match findChecksumAsset rel.assets with
      | some _ =>
        match verifyChecksum env.manifestDownloadOk env.manifestContent
            asset.name env.actualHash with
        | .error e =>
          (.error ("checksum verification failed: " ++ e), tr0 ++ [Action.verify])
        | .ok () => installStep env asset (tr0 ++ [Action.verify, Action.verifyOk])
      | none => installStep env asset tr0

/-- `Config.LogEntry` from pkg/config: rewrites the INI file's Log section and
writes the file back, reporting the write failure if any.  The INI-content
rewriting does not affect any claim; only the fallible write is modelled. -/
def logEntry (writeOk : Bool) (key value : String) : Except String Unit :=
  if writeOk then .ok () else .error ("failed to write " ++ key ++ "=" ++ value)

/-- `logResult` from updater.go lines 555-559: write the LastRun timestamp and
the LastResult summary through `Config.LogEntry`; both returned errors are
discarded by the Go code.  Returns the pairs whose write was attempted. -/
def logResult (env : Env) (result : String) : List (String × String) :=
  let _ := logEntry env.logWriteOk "LastRun" env.now
  let _ := logEntry env.logWriteOk "LastResult" result
  [("LastRun", env.now), ("LastResult", result)]

/-- `Run` from updater.go lines 67-117: connectivity check, current-version
discovery (with the "0.0.0" sentinel fallback), release lookup, version
comparison, check-only short-circuit, download-and-install, and outcome
logging.  Returns the error value and the list of log entries written. -/
def run (env : Env) : Except String Unit × List (String × String) :=
  if !env.connectOk then (.error "connection check failed", [])
  else
    let currentVersion := env.currentVersion.getD "0.0.0"
    match env.release with
    | none => (.error "failed to get latest release", [])
    | some rel =>
      let newVersion := trimPrefixStr rel.tagName "v"
      if !isNewerVersion currentVersion newVersion then
        (.ok (), logResult env "No new version found")
      else if env.checkOnly then (.ok (), [])
      else
        match (downloadAndInstall env rel).1 with
        | .error e => (.error ("update failed: " ++ e), [])
        | .ok () =>
          (.ok (), logResult env ("Updated from " ++ currentVersion ++ " to " ++ newVersion))

/-! Concrete fixtures used by the witness and counterexample theorems. -/

/-- A portable archive asset matching the primary (highest-priority) fragment
for portable x86_64 mode. -/
def assetPortableX64 : Asset :=
  { name := "noraneko-windows-x86_64-portable.zip", browserDownloadURL := "u1", size := 1 }

/-- An asset matching only the looser "win64.zip" fallback fragment. -/
def assetWin64 : Asset :=
  { name := "noraneko-win64.zip", browserDownloadURL := "u2", size := 2 }

/-- An asset matching no fragment and no fallback rule. -/
def assetReadme : Asset :=
  { name := "readme.txt", browserDownloadURL := "u3", size := 3 }

/-- A checksum manifest asset (name contains "sha256"). -/
def assetSums : Asset :=
  { name := "sha256sums.txt", browserDownloadURL := "u4", size := 4 }

/-- A release with no checksum manifest asset. -/
def relNoManifest : Release :=
  { tagName := "v2.0.0", relName := "rel", assets := [assetPortableX64] }

/-- A release carrying both the portable archive and a checksum manifest. -/
def relManifest : Release :=
  { tagName := "v2.0.0", relName := "rel", assets := [assetPortableX64, assetSums] }

/-- The release of the C4 counterexample: the win64 fallback-only asset is
listed before the asset matching the primary fragment. -/
def relC4 : Release :=
  { tagName := "v2.0.0", relName := "rel", assets := [assetWin64, assetPortableX64] }

/-- A baseline environment: every external effect succeeds, portable mode via
the command-line flag, a manifest whose single record names the portable
archive with digest "aaaa", and a downloaded file of that digest. -/
def baseEnv : Env where
  connectOk := true
  currentVersion := some "1.0.0"
  release := some relManifest
  checkOnly := false
  cfgPortable := false
  optsPortable := true
  downloadOk := true
  manifestDownloadOk := true
  manifestContent := "aaaa noraneko-windows-x86_64-portable.zip"
  actualHash := "aaaa"
  zipEntries := []
  workDir := ["tmp"]
  copyOk := true
  silentInstallOk := true
  interactiveInstallOk := true
  logWriteOk := true
  now := "2026-01-01 00:00:00"
  arch := "x86_64"

/-- Environment whose release has no checksum manifest. -/
def envNoManifest : Env := { baseEnv with release := some relNoManifest }

/-- Environment whose manifest has no record for the downloaded asset. -/
def envNoEntry : Env := { baseEnv with manifestContent := "aaaa unrelated.zip" }

/-- Environment for the check-only counterexample: a newer release exists and
check-only mode is on. -/
def envCheckOnly : Env := { baseEnv with checkOnly := true }

/-- Environment for the no-op outcome: the current version equals the latest. -/
def envNoop : Env := { baseEnv with currentVersion := some "2.0.0" }

/-- Environment where the outcome-log write fails on the no-op path. -/
def envLogFail : Env := { envNoop with logWriteOk := false }

/-- A zip entry whose relative path starts with a parent-directory traversal. -/
def badEntry : ZipEntry := { path := ["..", "evil"], isDir := false }

/-- The staging directory used by the C3 witness. -/
def destStage : List String := ["tmp", "stage"]

/-! Helper lemmas shared by the claim theorems. -/

theorem trimPrefixStr_v (s : String) :
    trimPrefixStr s "v" =
      if "v".data.isPrefixOf s.data then String.mk (s.data.drop 1) else s := rfl

theorem newerCore (c l : String) :
    (if c == "" || c == "0.0.0" then true else l != c) =
      (if c == "" then true else if c == "0.0.0" then true else !(l == c)) := by
  by_cases h1 : c == "" <;> by_cases h2 : c == "0.0.0" <;> simp [h1, h2, bne]

/-- Claim C2: after stripping a single leading "v" from each argument, an
empty or `"0.0.0"` current yields `true`, and otherwise `isNewerVersion` is
`true` iff the two normalised strings differ textually; in particular
`isNewerVersion "2.0.0" "1.9.9"` is `true`.  Totality over arbitrary text
holds by construction: `isNewerVersion` is a total Lean function on
`String`. -/
theorem isNewerVersion_matches_contract :
    (∀ current latest : String,
      isNewerVersion current latest = isNewerSpec current latest)
    ∧ isNewerVersion "2.0.0" "1.9.9" = true := by
  refine ⟨fun current latest => ?_, rfl⟩
  simp only [isNewerVersion, isNewerSpec]
  rw [trimPrefixStr_v current, trimPrefixStr_v latest]
  exact newerCore _ _

/-- Claim C7 counterexample: the claim states `isNewer("1.1.0", "1.0.1")` is
`false`, but the code's textual-inequality comparison returns `true` because
the two strings differ. -/
theorem isNewerVersion_1_1_0_counterexample :
    isNewerVersion "1.1.0" "1.0.1" = true := rfl

/-- Claim C7 (amended): `isNewer("1.1.0", "1.0.1")` is `true` (the strings
differ textually) and `isNewer("1.0.1", "1.1.0")` is `true`. -/
theorem isNewerVersion_textual_pair :
    isNewerVersion "1.1.0" "1.0.1" = true ∧ isNewerVersion "1.0.1" "1.1.0" = true :=
  ⟨rfl, rfl⟩

/-- Claim C8 counterexample: `"v"` is non-empty and differs from `"0.0.0"`,
yet `isNewer("v", "v")` is `true`, because the sentinel test runs after the
"v" is stripped and the stripped current is empty. -/
theorem isNewerVersion_irrefl_counterexample :
    ("v" : String) ≠ "" ∧ ("v" : String) ≠ "0.0.0" ∧ isNewerVersion "v" "v" = true := by
  refine ⟨by decide, by decide, rfl⟩

/-- Claim C8 (amended): for every version string whose form after stripping a
single leading "v" is non-empty and not `"0.0.0"`, `isNewer(current, current)`
is `false`. -/
theorem isNewerVersion_irrefl (current : String)
    (h1 : trimPrefixStr current "v" ≠ "")
    (h2 : trimPrefixStr current "v" ≠ "0.0.0") :
    isNewerVersion current current = false := by
  simp [isNewerVersion, h1, h2]

/-- Witness for the amended claim C8 at `current = "1.2.3"`. -/
theorem isNewerVersion_irrefl_witness :
    isNewerVersion "1.2.3" "1.2.3" = false :=
  isNewerVersion_irrefl "1.2.3" (by decide) (by decide)

/-- Claim C10: the sentinel check runs after stripping, so a "v"-prefixed
sentinel current `"v0.0.0"` and the bare marker `"v"` always report an update
as available, whatever `latest` is — including `latest` equal to the current
argument. -/
theorem isNewerVersion_sentinel_after_strip (latest : String) :
    isNewerVersion "v0.0.0" latest = true ∧ isNewerVersion "v" latest = true :=
  ⟨rfl, rfl⟩

theorem unzip_error_of_bad (entries : List ZipEntry) (dest : List String)
    (h : ∃ e ∈ entries, entryWithinDest dest e = false) :
    ∃ p, unzip entries dest = .error ("illegal file path: " ++ p) := by
  induction entries with
  | nil => simp at h
  | cons e rest ih =>
    by_cases he : entryWithinDest dest e = true
    · obtain ⟨x, hx, hxbad⟩ := h
      rcases List.mem_cons.mp hx with hhd | htl
      · subst hhd; rw [he] at hxbad; cases hxbad
      · obtain ⟨p, hp⟩ := ih ⟨x, htl, hxbad⟩
        exact ⟨p, by simpa [unzip, he] using hp⟩
    · exact ⟨String.intercalate "/" (entryDestPath dest e), by simp [unzip, he]⟩

/-- Claim C3: a zip entry whose joined target path does not stay lexically
inside the destination directory makes `unzip` fail with the path-safety
error, and `extractPortable` leaves the staging directory removed on every
exit path. -/
theorem unzip_path_safety (entries : List ZipEntry) (dest : List String) (copyOk : Bool)
    (h : ∃ e ∈ entries, entryWithinDest dest e = false) :
    (∃ p, unzip entries dest = .error ("illegal file path: " ++ p)) ∧
    stagingExists (extractPortable entries dest copyOk).events = false := by
  refine ⟨unzip_error_of_bad entries dest h, ?_⟩
  cases hz : unzip entries dest with
  | error e => simp [extractPortable, hz, stagingExists]
  | ok u =>
    cases u
    by_cases hc : copyOk = true <;> simp [extractPortable, hz, hc, stagingExists]

/-- Witness for claim C3: a single traversal entry `../evil` under the staging
directory `tmp/stage` is rejected and the staging directory ends up removed. -/
theorem unzip_path_safety_witness :
    (∃ p, unzip [badEntry] destStage = .error ("illegal file path: " ++ p)) ∧
    stagingExists (extractPortable [badEntry] destStage true).events = false :=
  unzip_path_safety [badEntry] destStage true (by decide)

/-- Claim C4 counterexample: with the fallback-only `noraneko-win64.zip`
listed before `noraneko-windows-x86_64-portable.zip`, which matches the
primary (highest-priority) fragment, `findAsset` returns the earlier-listed
asset: assets are tried in listed order, not in fragment-priority order (the
spec-worded resolver `findAssetSpec` would return the portable asset). -/
theorem findAsset_fragment_priority_counterexample :
    findAsset [assetWin64, assetPortableX64] true "x86_64" = .ok assetWin64 ∧
    findAssetSpec [assetWin64, assetPortableX64] true "x86_64" = .ok assetPortableX64 ∧
    assetSuffixes true "x86_64" =
      ["windows-x86_64-portable.zip", "win64.zip", "win64-setup.exe",
       "windows.zip", "windows-setup.exe"] ∧
    assetMatchesSuffix assetPortableX64 "windows-x86_64-portable.zip" = true ∧
    assetMatchesSuffix assetWin64 "windows-x86_64-portable.zip" = false ∧
    assetMatchesSuffix assetWin64 "win64.zip" = true ∧
    assetWin64 ≠ assetPortableX64 :=
  ⟨rfl, rfl, rfl, rfl, rfl, rfl, by decide⟩

/-- Claim C4 (amended): `findAsset` tries the assets in listed order and, for
each asset, the fragments in priority order; the first listed asset matching
any acceptable fragment wins, whatever the priority of the fragment it
matches. -/
theorem findAsset_first_listed_asset_wins (p : Bool) (arch : String)
    (l1 : List Asset) (a : Asset) (l2 : List Asset)
    (hnone : ∀ x ∈ l1, assetMatchesAny (assetSuffixes p arch) x = false)
    (ha : assetMatchesAny (assetSuffixes p arch) a = true) :
    findAsset (l1 ++ a :: l2) p arch = .ok a := by
  have hfind : (l1 ++ a :: l2).find? (assetMatchesAny (assetSuffixes p arch)) = some a := by
    induction l1 with
    | nil => simp [List.find?, ha]
    | cons x xs ih =>
      have hx := hnone x (List.mem_cons_self x xs)
      have ih2 := ih fun y hy => hnone y (List.mem_cons_of_mem x hy)
      simp [List.find?, hx, ih2]
  simp [findAsset, hfind]

/-- Witness for the amended claim C4: a non-matching asset listed first is
skipped and the matching portable asset is returned. -/
theorem findAsset_first_listed_asset_wins_witness :
    findAsset ([assetReadme] ++ assetPortableX64 :: []) true "x86_64" = .ok assetPortableX64 :=
  findAsset_first_listed_asset_wins true "x86_64" [assetReadme] assetPortableX64 []
    (by decide) (by decide)

/-- Claim C5 counterexample: the record name `Dir/App.ZIP` is a
case-insensitive suffix match for the target `app.zip` (the spec-worded
matcher `findExpectedHashSpec` selects its digest), but the code's Go
`strings.HasSuffix` is case-sensitive, so `findExpectedHash` finds no record
and verification fails with the entry-not-found error. -/
theorem verify_suffix_case_counterexample :
    findExpectedHashSpec "aaaa Dir/App.ZIP" "app.zip" = some "aaaa" ∧
    findExpectedHash "aaaa Dir/App.ZIP" "app.zip" = none ∧
    verifyChecksum true "aaaa Dir/App.ZIP" "app.zip" "aaaa" =
      .error "checksum for app.zip not found in checksum file" :=
  ⟨rfl, rfl, rfl⟩

theorem findSome_lineMatch_eq_amended (lines : List String) (target : String) :
    lines.findSome? (lineMatch target) = findHashAmended lines target := by
  induction lines with
  | nil => rfl
  | cons l rest ih =>
    simp only [List.findSome?]
    cases hf : fieldsOf l with
    | nil => simpa [findHashAmended, hf, lineMatch] using ih
    | cons hash tl =>
      cases tl with
      | nil => simpa [findHashAmended, hf, lineMatch] using ih
      | cons nm tl2 =>
        by_cases hcond :
            (strToLower (trimStar nm) == strToLower target
              || strHasSuffix (trimStar nm) target) = true
        · simp [findHashAmended, hf, lineMatch, equalFold, hcond]
        · simp only [Bool.not_eq_true] at hcond
          simp [findHashAmended, hf, lineMatch, equalFold, hcond, ih]

/-- Claim C5 (amended): `verifyChecksum` matches a manifest record by
case-insensitive **exact** or case-sensitive **suffix** match of the record's
marker-stripped filename field against the target name, first match winning;
and when no record matches, `downloadAndInstall` fails before invoking any
install strategy — the downloaded-but-unmatching manifest blocks
installation instead of being treated as the absent-manifest case. -/
theorem verify_match_amended :
    (∀ data target : String,
      findExpectedHash data target = findExpectedHashAmended data target)
    ∧ (∀ (env : Env) (rel : Release) (asset c : Asset),
        findAsset rel.assets (env.cfgPortable || env.optsPortable) env.arch = .ok asset →
        env.downloadOk = true →
        findChecksumAsset rel.assets = some c →
        env.manifestDownloadOk = true →
        findExpectedHash env.manifestContent asset.name = none →
        (∃ e, (downloadAndInstall env rel).1 = .error e) ∧
        Action.extract ∉ (downloadAndInstall env rel).2 ∧
        Action.install ∉ (downloadAndInstall env rel).2) := by
  constructor
  · intro data target
    exact findSome_lineMatch_eq_amended (splitLines data) target
  · intro env rel asset c hfa hdl hcs hman hnone
    have hv : verifyChecksum env.manifestDownloadOk env.manifestContent
        asset.name env.actualHash =
        .error ("checksum for " ++ asset.name ++ " not found in checksum file") := by
      simp [verifyChecksum, hman, hnone]
    refine ⟨⟨"checksum verification failed: " ++
        ("checksum for " ++ asset.name ++ " not found in checksum file"), ?_⟩, ?_, ?_⟩ <;>
      simp [downloadAndInstall, hfa, hdl, hcs, hv]

/-- Witness for the amended claim C5: a manifest whose only record names
`unrelated.zip` blocks the portable install of the downloaded archive. -/
theorem verify_match_amended_witness :
    (∃ e, (downloadAndInstall envNoEntry relManifest).1 = .error e) ∧
    Action.extract ∉ (downloadAndInstall envNoEntry relManifest).2 ∧
    Action.install ∉ (downloadAndInstall envNoEntry relManifest).2 :=
  verify_match_amended.2 envNoEntry relManifest assetPortableX64 assetSums
    rfl rfl rfl rfl rfl

theorem bne_download_extract (n : String) : (Action.download n != Action.extract) = true := rfl

theorem bne_verify_extract : (Action.verify != Action.extract) = true := rfl

theorem bne_verifyOk_extract : (Action.verifyOk != Action.extract) = true := rfl

theorem bne_extract_extract : (Action.extract != Action.extract) = false := rfl

theorem bne_download_install (n : String) : (Action.download n != Action.install) = true := rfl

theorem bne_verify_install : (Action.verify != Action.install) = true := rfl

theorem bne_verifyOk_install : (Action.verifyOk != Action.install) = true := rfl

/-- Claim C1: whenever a checksum manifest asset is found in the release,
neither install strategy (portable extraction nor installer invocation) shows
up in the `downloadAndInstall` trace unless checksum verification of the
downloaded asset succeeded, and the successful verification precedes the
install action; when no manifest asset is found, the run installs without any
verification action. -/
theorem checksum_gates_install (env : Env) (rel : Release) :
    ((findChecksumAsset rel.assets).isSome = true →
      ∀ a : Action, (a = Action.extract ∨ a = Action.install) →
        a ∈ (downloadAndInstall env rel).2 →
        (∃ asset, findAsset rel.assets (env.cfgPortable || env.optsPortable) env.arch
              = .ok asset ∧
            verifyChecksum env.manifestDownloadOk env.manifestContent asset.name
              env.actualHash = .ok ()) ∧
          Action.verifyOk ∈ (downloadAndInstall env rel).2.takeWhile (fun b => b != a))
    ∧ (findChecksumAsset rel.assets = none →
        Action.verify ∉ (downloadAndInstall env rel).2 ∧
        Action.verifyOk ∉ (downloadAndInstall env rel).2 ∧
        (env.downloadOk = true →
          ∀ asset2 : Asset,
            findAsset rel.assets (env.cfgPortable || env.optsPortable) env.arch
                = .ok asset2 →
            Action.extract ∈ (downloadAndInstall env rel).2 ∨
              Action.install ∈ (downloadAndInstall env rel).2)) := by
  cases hfa : findAsset rel.assets (env.cfgPortable || env.optsPortable) env.arch with
  | error e =>
    constructor
    · intro _ a _ hmem
      simp [downloadAndInstall, hfa] at hmem
    · intro _
      refine ⟨by simp [downloadAndInstall, hfa], by simp [downloadAndInstall, hfa], ?_⟩
      intro _ asset2 hasset2
      simp at hasset2
  | ok asset =>
    by_cases hdl : env.downloadOk = true
    · cases hcs : findChecksumAsset rel.assets with
      | none =>
        constructor
        · intro hsome
          simp at hsome
        · intro _
          by_cases hp : ((env.cfgPortable || env.optsPortable)
              || strHasSuffix asset.name ".zip") = true
          · refine ⟨?_, ?_, ?_⟩
            · simp [downloadAndInstall, hfa, hdl, hcs, installStep, hp]
            · simp [downloadAndInstall, hfa, hdl, hcs, installStep, hp]
            · intro _ _ _
              left
              simp [downloadAndInstall, hfa, hdl, hcs, installStep, hp]
          · simp only [Bool.not_eq_true] at hp
            refine ⟨?_, ?_, ?_⟩
            · simp [downloadAndInstall, hfa, hdl, hcs, installStep, hp]
            · simp [downloadAndInstall, hfa, hdl, hcs, installStep, hp]
            · intro _ _ _
              right
              simp [downloadAndInstall, hfa, hdl, hcs, installStep, hp]
      | some ca =>
        constructor
        · intro _ a ha hmem
          cases hv : verifyChecksum env.manifestDownloadOk env.manifestContent
              asset.name env.actualHash with
          | error e2 =>
            rcases ha with rfl | rfl <;>
              simp [downloadAndInstall, hfa, hdl, hcs, hv] at hmem
          | ok u =>
            cases u
            refine ⟨⟨asset, rfl, hv⟩, ?_⟩
            by_cases hp : ((env.cfgPortable || env.optsPortable)
                || strHasSuffix asset.name ".zip") = true
            · rcases ha with rfl | rfl
              · simp [downloadAndInstall, hfa, hdl, hcs, hv, installStep, hp,
                  List.takeWhile, bne_download_extract, bne_verify_extract,
                  bne_verifyOk_extract]
              · exfalso
                simp [downloadAndInstall, hfa, hdl, hcs, hv, installStep, hp] at hmem
            · simp only [Bool.not_eq_true] at hp
              rcases ha with rfl | rfl
              · exfalso
                simp [downloadAndInstall, hfa, hdl, hcs, hv, installStep, hp] at hmem
              · simp [downloadAndInstall, hfa, hdl, hcs, hv, installStep, hp,
                  List.takeWhile, bne_download_install, bne_verify_install,
                  bne_verifyOk_install]
        · intro hnone
          simp at hnone
    · simp only [Bool.not_eq_true] at hdl
      constructor
      · intro _ a ha hmem
        rcases ha with rfl | rfl <;> simp [downloadAndInstall, hfa, hdl] at hmem
      · intro _
        refine ⟨by simp [downloadAndInstall, hfa, hdl],
          by simp [downloadAndInstall, hfa, hdl], ?_⟩
        intro hdl2 _ _
        rw [hdl] at hdl2
        cases hdl2

/-- Witness for claim C1: with a manifest present and matching, the extract
action happens after a successful verification; with no manifest, the run
extracts with no verification action in the trace. -/
theorem checksum_gates_install_witness :
    ((∃ asset, findAsset relManifest.assets
          (baseEnv.cfgPortable || baseEnv.optsPortable) baseEnv.arch = .ok asset ∧
        verifyChecksum baseEnv.manifestDownloadOk baseEnv.manifestContent asset.name
          baseEnv.actualHash = .ok ()) ∧
      Action.verifyOk ∈ (downloadAndInstall baseEnv relManifest).2.takeWhile
        (fun b => b != Action.extract)) ∧
    (Action.verify ∉ (downloadAndInstall envNoManifest relNoManifest).2 ∧
      Action.verifyOk ∉ (downloadAndInstall envNoManifest relNoManifest).2 ∧
      (envNoManifest.downloadOk = true →
        ∀ asset2 : Asset,
          findAsset relNoManifest.assets
              (envNoManifest.cfgPortable || envNoManifest.optsPortable)
              envNoManifest.arch = .ok asset2 →
          Action.extract ∈ (downloadAndInstall envNoManifest relNoManifest).2 ∨
            Action.install ∈ (downloadAndInstall envNoManifest relNoManifest).2)) :=
  ⟨(checksum_gates_install baseEnv relManifest).1 rfl Action.extract (Or.inl rfl)
      (by decide),
    (checksum_gates_install envNoManifest relNoManifest).2 rfl⟩

/-- Claim C6 counterexample: in check-only mode with a newer release
available, `run` ends successfully at the check-only short-circuit — after
the version-comparison step — yet writes no result line at all. -/
theorem run_checkOnly_skips_log_counterexample :
    envCheckOnly.checkOnly = true ∧
    isNewerVersion (envCheckOnly.currentVersion.getD "0.0.0")
        (trimPrefixStr relManifest.tagName "v") = true ∧
    run envCheckOnly = (.ok (), []) :=
  ⟨rfl, rfl, rfl⟩

/-- Claim C6 (amended): a result line (LastRun and LastResult) is appended
exactly on the two success outcomes that pass the version comparison without
the check-only flag — the no-newer-version no-op and a completed install.
The check-only short-circuit returns success without recording, and every
failing path (before or after the comparison) records nothing. -/
theorem run_outcome_logging (env : Env) (rel : Release)
    (hrel : env.release = some rel) (hok : (run env).1 = .ok ()) :
    (isNewerVersion (env.currentVersion.getD "0.0.0")
        (trimPrefixStr rel.tagName "v") = false →
      (run env).2 = [("LastRun", env.now), ("LastResult", "No new version found")])
    ∧ (isNewerVersion (env.currentVersion.getD "0.0.0")
          (trimPrefixStr rel.tagName "v") = true →
        env.checkOnly = true → (run env).2 = [])
    ∧ (isNewerVersion (env.currentVersion.getD "0.0.0")
          (trimPrefixStr rel.tagName "v") = true →
        env.checkOnly = false →
        (run env).2 =
          [("LastRun", env.now),
           ("LastResult", "Updated from " ++ env.currentVersion.getD "0.0.0" ++ " to " ++
              trimPrefixStr rel.tagName "v")])
    ∧ (∀ env2 : Env, ∀ e : String, (run env2).1 = .error e → (run env2).2 = []) := by
  cases hco : env.connectOk with
  | false => simp [run, hco] at hok
  | true =>
    refine ⟨?_, ?_, ?_, ?_⟩
    · intro hnew
      simp [run, hco, hrel, hnew, logResult]
    · intro hnew hch
      simp [run, hco, hrel, hnew, hch]
    · intro hnew hch
      cases hdi : (downloadAndInstall env rel).1 with
      | error e => simp [run, hco, hrel, hnew, hch, hdi] at hok
      | ok u =>
        cases u
        simp [run, hco, hrel, hnew, hch, hdi, logResult]
    · intro env2 e he
      cases hco2 : env2.connectOk with
      | false => simp [run, hco2]
      | true =>
        cases hrel2 : env2.release with
        | none => simp [run, hco2, hrel2]
        | some rel2 =>
          cases hnew2 : isNewerVersion (env2.currentVersion.getD "0.0.0")
              (trimPrefixStr rel2.tagName "v") with
          | false => simp [run, hco2, hrel2, hnew2] at he
          | true =>
            cases hch2 : env2.checkOnly with
            | true => simp [run, hco2, hrel2, hnew2, hch2] at he
            | false =>
              cases hdi2 : (downloadAndInstall env2 rel2).1 with
              | error e2 => simp [run, hco2, hrel2, hnew2, hch2, hdi2]
              | ok u2 =>
                cases u2
                simp [run, hco2, hrel2, hnew2, hch2, hdi2] at he

/-- Witness for the amended claim C6: the no-op outcome appends the result
line. -/
theorem run_outcome_logging_witness :
    (run envNoop).2 = [("LastRun", envNoop.now), ("LastResult", "No new version found")] :=
  (run_outcome_logging envNoop relManifest rfl rfl).1 rfl

/-- Claim C9 counterexample: with the outcome-log write failing, `LogEntry`
reports an error, yet `run` still returns success after attempting both log
entries — the stage failure is not propagated. -/
theorem run_ok_despite_log_failure_counterexample :
    logEntry envLogFail.logWriteOk "LastRun" envLogFail.now =
      .error "failed to write LastRun=2026-01-01 00:00:00" ∧
    (run envLogFail).1 = .ok () ∧
    (run envLogFail).2 =
      [("LastRun", envLogFail.now), ("LastResult", "No new version found")] :=
  ⟨rfl, rfl, rfl⟩

/-- Claim C9 (amended): outcome-logging failures are ignored: `logResult`
discards the errors returned by `Config.LogEntry`, so both the result and the
attempted log entries of `run` are independent of whether the log write
succeeds. -/
theorem run_result_independent_of_logging (env : Env) (b : Bool) :
    (run { env with logWriteOk := b }).1 = (run env).1 ∧
    (run { env with logWriteOk := b }).2 = (run env).2 :=
  ⟨rfl, rfl⟩

end Noraneko
